import Mathlib

/-!
# Verification of the fabmogp demo pipeline (`config_files/demo/run.py`)

This file gives a shallow embedding of the orchestration pipeline in
`config_files/demo/run.py`: design generation, batch simulation dispatch,
design persistence, result aggregation, the validation-point step, the
history-matching query, and the command-line entry point.

External collaborators (`mogp_emulator.LatinHypercubeDesign.sample`,
`earthquake.create_problem`, `earthquake.run_simulation`,
`earthquake.compute_moment`, `mogp_emulator.HistoryMatching`) are not part of
the repository source; they appear here as abstract functions gathered in the
`Collab` structure, or — for the history-matching formula — as definitions
modelled from the specification's collaborator contracts (so marked in their
doc comments).

Machine reals are modelled by `ℝ`; the filesystem by an association list from
resolved path strings to stored designs; external failures by `Option`/
`Except` results of the collaborator oracles.
-/

namespace Fabmogp

/-- A parameter point: an ordered tuple of real coordinates
(three calibration dimensions in the demo). -/
abbrev Point := List ℝ

/-- A design of experiments: an ordered sequence of parameter points. -/
abbrev Design := List Point

/-! ## Paths and the filesystem

`run_mogp_simulation` saves the design with `np.save('input_points.npy', ...)`
(a path relative to the process working directory), while `run_mogp_analysis`
loads `np.load(join(results_dir, "input_points.npy"))`.  We model
`os.path.join` and relative-path resolution against a working directory. -/

/-- Whether a path is absolute (begins with the separator). -/
def isAbsolute (p : String) : Bool :=
  match p.data with
  | '/' :: _ => true
  | _ => false

/-- Whether a path already ends with the separator. -/
def endsWithSep (a : String) : Bool :=
  match a.data.getLast? with
  | some '/' => true
  | _ => false

/-- `os.path.join a b` for a single component: `b` if `b` is absolute,
otherwise `a` and `b` joined with a separator. -/
def pyJoin (a b : String) : String :=
  if isAbsolute b then b
  else if a = "" then b
  else if endsWithSep a then a ++ b
  else a ++ "/" ++ b

/-- Resolve a possibly relative path against the working directory `cwd`. -/
def resolvePath (cwd p : String) : String :=
  if isAbsolute p then p else pyJoin cwd p

/-- The filesystem, restricted to design artifacts: an association list from
resolved paths to stored designs (later writes shadow earlier ones). -/
abbrev FS := List (String × Design)

/-- Write a design artifact at a resolved path. -/
def writeFS (fs : FS) (path : String) (d : Design) : FS := (path, d) :: fs

/-- Read the design artifact at a resolved path, if present. -/
def readFS : FS → String → Option Design
  | [], _ => none
  | (q, d) :: rest, path => if q = path then some d else readFS rest path

/-- The file name the batch driver passes to `np.save`
(and the aggregator joins onto `results_dir`). -/
def designFileName : String := "input_points.npy"

/-! ## External collaborators -/

/-- Errors surfaced by the pipeline. -/
inductive PipelineError where
  /-- An external simulation case failed during construction or execution. -/
  | simulationFailure (name : String)
  /-- The persisted design artifact was absent at analysis time. -/
  | notFound
  /-- A case's output was absent when the aggregator asked for its moment. -/
  | missingResult (name : String)
deriving DecidableEq

/-- The external collaborators of the pipeline, as abstract oracles:
`sampler s n` is `ed.sample(n)` run from global RNG state `s` (returning the
points and the advanced state); `createOk`/`runOk` report whether
`create_problem`/`run_simulation` succeed for a named case; `extract` is
`compute_moment`, `none` when the case's output is absent. -/
structure Collab where
  sampler : Nat → Nat → Design × Nat
  createOk : String → Point → Bool
  runOk : String → Bool
  extract : String → Option ℝ

/-- The case name the batch driver derives from the 1-based loop counter:
`"simulation_{}".format(counter)`. -/
def simName (c : Nat) : String := "simulation_" ++ toString c

/-- The reserved case name of the validation point. -/
def validationName : String := "known_value"

/-- Observable per-case actions of the pipeline, in dispatch order. -/
inductive Event where
  | create (name : String) (p : Point)
  | run (name : String)
  | extract (name : String)

/-- The two actions the batch driver performs for one case:
`create_problem` then `run_simulation`, in that order. -/
def perCaseEvents (name : String) (p : Point) : List Event :=
  [Event.create name p, Event.run name]

/-! ## Batch driver (`run_mogp_simulation`) -/

/-- The batch loop of `run_mogp_simulation`: walks the design with a 1-based
counter, names the case `simulation_<counter>`, constructs then executes it,
and moves to the next point only after the case completed.  Returns the trace
of dispatched actions and the first failure, if any (a raised exception
aborts the loop). -/
def batchLoop (C : Collab) : Design → Nat → List Event × Option PipelineError
  | [], _ => ([], none)
  | p :: ps, c =>
    let name := simName c
    if C.createOk name p then
      if C.runOk name then
        let r := batchLoop C ps (c + 1)
        (perCaseEvents name p ++ r.1, r.2)
      else ([Event.create name p], some (PipelineError.simulationFailure name))
    else ([], some (PipelineError.simulationFailure name))

/-- The RNG state installed by `np.random.seed(157374)`. -/
def seededState : Nat := 157374

/-- The design `run_mogp_simulation` generates: it seeds the global RNG with
the fixed constant (discarding the pre-call state `rng`) and then samples
`n` points. -/
def generatedDesign (C : Collab) (n : Nat) (rng : Nat) : Design :=
  let _pre := rng
  (C.sampler seededState n).1

/-- `run_mogp_simulation(sample_points, mpi_exec, fdfault_exec, results_dir)`
run from working directory `cwd` with pre-call RNG state `rng` on filesystem
`fs`: seeds, samples, runs the batch loop, and — only when the whole loop
completed — saves the design via `np.save('input_points.npy', input_points)`,
a path relative to `cwd`, not under `results_dir`.  Returns the filesystem,
the dispatch trace, and the error that aborted the run, if any. -/
def run_mogp_simulation (C : Collab) (n : Nat) (rng : Nat) (cwd rd : String)
    (fs : FS) : FS × List Event × Option PipelineError :=
  let _ := rd
  let pts := generatedDesign C n rng
  let r := batchLoop C pts 1
  match r.2 with
  | some e => (fs, r.1, some e)
  | none => (writeFS fs (resolvePath cwd designFileName) pts, r.1, none)

/-! ## Result aggregator (front half of `run_mogp_analysis`) -/

/-- The aggregation loop of `run_mogp_analysis`: walks the loaded design with
a 1-based counter, derives the same `simulation_<counter>` name, and collects
`compute_moment` results in order; an absent case output raises and aborts
the loop. -/
def aggLoop (C : Collab) : Design → Nat → Except PipelineError (List ℝ)
  | [], _ => Except.ok []
  | _ :: ps, c =>
    match C.extract (simName c) with
    | none => Except.error (PipelineError.missingResult (simName c))
    | some r =>
      match aggLoop C ps (c + 1) with
      | Except.error e => Except.error e
      | Except.ok rest => Except.ok (r :: rest)

/-- Load the persisted design the way `run_mogp_analysis` does:
`np.load(join(results_dir, "input_points.npy"))`, resolved against the
working directory. -/
def loadDesign (fs : FS) (cwd rd : String) : Option Design :=
  readFS fs (resolvePath cwd (pyJoin rd designFileName))

/-- The aggregation phase of `run_mogp_analysis`: load the persisted design
(NotFound if absent) and pair it with the per-case moments in design order. -/
def load_training_set (C : Collab) (fs : FS) (cwd rd : String) :
    Except PipelineError (Design × List ℝ) :=
  match loadDesign fs cwd rd with
  | none => Except.error PipelineError.notFound
  | some pts =>
    match aggLoop C pts 1 with
    | Except.error e => Except.error e
    | Except.ok rs => Except.ok (pts, rs)

/-! ## Validation-point step of `run_mogp_analysis` -/

/-- The validation step of `run_mogp_analysis`: one fresh `ed.sample(1)` draw
from the current RNG state `s`, then the same construction/execution actions
as a batch case under the reserved name, then moment extraction. -/
def validationStep (C : Collab) (s : Nat) : Design × List Event :=
  let r := C.sampler s 1
  (r.1, perCaseEvents validationName r.1.headI ++ [Event.extract validationName])

/-! ## Command-line entry point (`__main__`) -/

/-- Outcome of the `__main__` dispatch on `sys.argv`. -/
inductive MainOutcome where
  /-- The `run_simulation` branch called `run_mogp_simulation` with the
  parsed sample count. -/
  | ranSimulation (sample_points : Int)
  /-- The `analysis` branch called `run_mogp_analysis`. -/
  | ranAnalysis
  /-- `int(sys.argv[5])` raised `ValueError`: the error message was printed
  and the process exited before any pipeline stage ran. -/
  | invalidInput
  /-- No branch matched: the `if`/`elif` chain fell through and the process
  exited normally, running nothing, writing nothing, reporting nothing. -/
  | fellThrough
deriving DecidableEq

/-- Whitespace characters Python's `int` strips around the literal. -/
def isSpaceChar (c : Char) : Bool := c = ' ' || c = '\t' || c = '\n' || c = '\r'

/-- Drop leading whitespace from a character list. -/
def dropLeadingSpaces : List Char → List Char
  | [] => []
  | c :: cs => if isSpaceChar c then dropLeadingSpaces cs else c :: cs

/-- Strip whitespace from both ends of a character list. -/
def stripSpaces (l : List Char) : List Char :=
  (dropLeadingSpaces (dropLeadingSpaces l).reverse).reverse

/-- The numeric value of a decimal digit character, if it is one. -/
def digitVal? (c : Char) : Option Nat :=
  if c.isDigit then some (c.toNat - '0'.toNat) else none

/-- Accumulate the value of a nonempty all-digit character list; `none` on a
non-digit or when no digit was seen. -/
def digitsVal? : List Char → Option Nat → Option Nat
  | [], acc => acc
  | c :: cs, acc =>
    match digitVal? c, acc with
    | some d, some a => digitsVal? cs (some (10 * a + d))
    | some d, none => digitsVal? cs (some d)
    | none, _ => none

/-- Python's `int(s)` on a string: optional surrounding whitespace, optional
sign, then decimal digits; anything else raises `ValueError` (`none`). -/
def parsePyInt (s : String) : Option Int :=
  match stripSpaces s.data with
  | '-' :: rest => (digitsVal? rest none).map (fun n => -(n : Int))
  | '+' :: rest => (digitsVal? rest none).map (fun n => (n : Int))
  | rest => (digitsVal? rest none).map (fun n => (n : Int))

/-- The `__main__` dispatch: `mood` is `sys.argv[1]`, `sampleArg` is
`sys.argv[5]` as consumed by the `run_simulation` branch.  Mirrors the
`if mood == "run_simulation": ... elif mood == "analysis": ...` chain,
which has no `else` branch. -/
def mainEntry (mood : String) (sampleArg : String) : MainOutcome :=
  if mood = "run_simulation" then
    match parsePyInt sampleArg with
    | none => MainOutcome.invalidInput
    | some n => MainOutcome.ranSimulation n
  else if mood = "analysis" then MainOutcome.ranAnalysis
  else MainOutcome.fellThrough

/-! ## History matching (`mogp_emulator.HistoryMatching`)

The history-matching engine is an external collaborator
(`mogp_emulator.HistoryMatching`, constructed at `run.py` lines 90-91 with
`obs=known_value, coords=query_points, expectations=predictions,
threshold=2.`); its implementation is not part of this repository.  The
definitions below are modelled from the specification's collaborator
contract (spec §4.5). -/

/-- Modelled from the spec: the per-point implausibility of
`mogp_emulator.HistoryMatching` (external, not in the repository source) —
`|observation − mean| / sqrt(variance)`, with the degenerate zero-variance
policy of spec §4.5: implausibility `0` when the mean equals the observation
exactly, `+∞` (ruled out) otherwise.  Values live in `ENNReal` so that the
zero-variance case is total rather than a division fault. -/
noncomputable def implausibility (obs mean v : ℝ) : ENNReal :=
  if v = 0 then (if mean = obs then 0 else ⊤)
  else ENNReal.ofReal (|obs - mean| / Real.sqrt v)

/-- Modelled from the spec: `HistoryMatching.get_implausibility` — one
implausibility score per prediction `(mean, variance)`, in query order. -/
noncomputable def get_implausibility (obs : ℝ) (preds : List (ℝ × ℝ)) :
    List ENNReal :=
  preds.map (fun p => implausibility obs p.1 p.2)

/-- Modelled from the spec: `HistoryMatching.get_NROY` — the set of query
indices whose implausibility does not exceed the threshold (inclusive
boundary). -/
def nroy (obs : ℝ) (preds : List (ℝ × ℝ)) (threshold : ℝ) : Set Nat :=
  {i | i < preds.length ∧
    implausibility obs (preds.getD i (0, 0)).1 (preds.getD i (0, 0)).2 ≤
      ENNReal.ofReal threshold}

/-! ## Concrete collaborator instances used by witnesses -/

/-- A collaborator bundle on which every external call succeeds. -/
def okCollab : Collab :=
  ⟨fun s n => (List.replicate n [0, 0, 0], s), fun _ _ => true, fun _ => true,
    fun _ => some 0⟩

/-- A collaborator bundle on which every `create_problem` call fails. -/
def failCollab : Collab :=
  ⟨fun s n => (List.replicate n [0, 0, 0], s), fun _ _ => false, fun _ => true,
    fun _ => some 0⟩

/-- A collaborator bundle whose moment extraction knows the outputs of the
first two batch cases only, with distinct values. -/
def demoCollab : Collab :=
  ⟨fun s n => (List.replicate n [0, 0, 0], s), fun _ _ => true, fun _ => true,
    fun nm => if nm = simName 1 then some 10 else
      if nm = simName 2 then some 20 else none⟩

/-! ## Theorems -/

/-- C5: two invocations of the batch driver with the same sample count
produce identical designs (and identical runs altogether), whatever the
process-wide RNG state was before each invocation, because
`np.random.seed(157374)` installs the same fixed state at the start of every
run. -/
theorem C5_batch_determinism (C : Collab) (n rng1 rng2 : Nat) (cwd rd : String)
    (fs : FS) :
    generatedDesign C n rng1 = generatedDesign C n rng2 ∧
    run_mogp_simulation C n rng1 cwd rd fs =
      run_mogp_simulation C n rng2 cwd rd fs :=
  ⟨rfl, rfl⟩

/-- C10: any first command-line argument other than `"run_simulation"` and
`"analysis"` makes the `if`/`elif` chain fall through: no pipeline stage
runs, nothing is written, no error is reported, the process exits
normally. -/
theorem C10_unrecognized_mode_silent_noop (mood arg : String)
    (h1 : mood ≠ "run_simulation") (h2 : mood ≠ "analysis") :
    mainEntry mood arg = MainOutcome.fellThrough := by
  unfold mainEntry
  rw [if_neg h1, if_neg h2]

/-- Witness for C10 at the concrete unrecognized mode `"frobnicate"`. -/
theorem C10_witness :
    "frobnicate" ≠ "run_simulation" ∧ "frobnicate" ≠ "analysis" ∧
    mainEntry "frobnicate" "5" = MainOutcome.fellThrough :=
  ⟨by decide, by decide,
    C10_unrecognized_mode_silent_noop "frobnicate" "5" (by decide) (by decide)⟩

/-- Counterexample to C3 as stated: the non-positive integer text `"0"`
parses successfully, so the entry point dispatches `run_mogp_simulation`
with sample count `0` instead of failing with an invalid-input error. -/
theorem C3_counterexample :
    parsePyInt "0" = some 0 ∧
    mainEntry "run_simulation" "0" = MainOutcome.ranSimulation 0 ∧
    MainOutcome.ranSimulation 0 ≠ MainOutcome.invalidInput := by
  decide

/-- C3 (amended): only text that fails integer conversion is rejected — then
the error is reported before any simulation is dispatched; text that parses
as an integer, including non-positive values such as `"0"` and `"-3"`, is
passed to the batch driver unchanged (never coerced) with no positivity
check. -/
theorem C3_invalid_sample_count (s : String) :
    (parsePyInt s = none →
      mainEntry "run_simulation" s = MainOutcome.invalidInput) ∧
    (∀ n : Int, parsePyInt s = some n →
      mainEntry "run_simulation" s = MainOutcome.ranSimulation n) := by
  constructor
  · intro h
    simp [mainEntry, h]
  · intro n h
    simp [mainEntry, h]

/-- Witness for C3 (amended) at `"abc"` (rejected before dispatch) and
`"-3"` (passed through uncoerced). -/
theorem C3_witness :
    mainEntry "run_simulation" "abc" = MainOutcome.invalidInput ∧
    mainEntry "run_simulation" "-3" = MainOutcome.ranSimulation (-3) :=
  ⟨(C3_invalid_sample_count "abc").1 (by decide),
    (C3_invalid_sample_count "-3").2 (-3) (by decide)⟩

/-- C7: a zero-variance prediction does not fault — the modelled engine
applies the one consistent rule of spec §4.5: implausibility `0` when the
mean equals the observation exactly, `+∞` (ruled out) otherwise. -/
theorem C7_zero_variance_policy (obs mean : ℝ) :
    (mean = obs → implausibility obs mean 0 = 0) ∧
    (mean ≠ obs → implausibility obs mean 0 = ⊤) := by
  constructor
  · intro h
    simp [implausibility, h]
  · intro h
    simp [implausibility, h]

/-- Witness for C7 at `mean = obs = 1` (score `0`) and at
`obs = 0, mean = 1` (score `+∞`). -/
theorem C7_witness :
    implausibility 1 1 0 = 0 ∧ ((1 : ℝ) ≠ 0) ∧ implausibility 0 1 0 = ⊤ :=
  ⟨(C7_zero_variance_policy 1 1).1 rfl, by norm_num,
    (C7_zero_variance_policy 0 1).2 (by norm_num)⟩

/-- C9: the design artifact is written only after every case of the batch
loop has completed: if any case's construction or execution fails, the run
terminates with the filesystem untouched — no partial design artifact; on
full success the design is saved (to the working directory). -/
theorem C9_all_or_nothing_persistence (C : Collab) (n rng : Nat)
    (cwd rd : String) (fs : FS) :
    ((run_mogp_simulation C n rng cwd rd fs).2.2 ≠ none →
      (run_mogp_simulation C n rng cwd rd fs).1 = fs) ∧
    ((run_mogp_simulation C n rng cwd rd fs).2.2 = none →
      (run_mogp_simulation C n rng cwd rd fs).1 =
        writeFS fs (resolvePath cwd designFileName) (generatedDesign C n rng)) := by
  unfold run_mogp_simulation
  cases h : (batchLoop C (generatedDesign C n rng) 1).2 <;> simp [h]

/-- Witness for C9: a failing batch (construction always fails) leaves the
empty filesystem empty; a fully successful batch writes the design. -/
theorem C9_witness :
    (run_mogp_simulation failCollab 1 0 "/a" "/b" []).1 = [] ∧
    (run_mogp_simulation okCollab 1 0 "/a" "/b" []).1 =
      writeFS [] (resolvePath "/a" designFileName) (generatedDesign okCollab 1 0) :=
  ⟨(C9_all_or_nothing_persistence failCollab 1 0 "/a" "/b" []).1 (by decide),
    (C9_all_or_nothing_persistence okCollab 1 0 "/a" "/b" []).2 (by decide)⟩

/-- A collaborator bundle on which exactly the output of case
`simulation_3` is absent. -/
def missing3Collab : Collab :=
  ⟨fun s n => (List.replicate n [0, 0, 0], s), fun _ _ => true, fun _ => true,
    fun nm => if nm = simName 3 then none else some 1⟩

/-- If some case output in range is absent, the aggregation loop aborts with
a missing-result error. -/
theorem aggLoop_error_of_missing (C : Collab) :
    ∀ (pts : Design) (c : Nat),
    (∃ i, i < pts.length ∧ C.extract (simName (c + i)) = none) →
    ∃ nm, aggLoop C pts c = Except.error (PipelineError.missingResult nm) := by
  intro pts
  induction pts with
  | nil =>
    intro c h
    obtain ⟨i, hi, -⟩ := h
    simp at hi
  | cons p ps ih =>
    intro c h
    obtain ⟨i, hi, hnone⟩ := h
    cases hcase : C.extract (simName c) with
    | none => exact ⟨simName c, by simp [aggLoop, hcase]⟩
    | some r =>
      cases i with
      | zero =>
        rw [Nat.add_zero] at hnone
        rw [hnone] at hcase
        exact Option.noConfusion hcase
      | succ j =>
        have hj : j < ps.length := by simpa using hi
        have harg : C.extract (simName (c + 1 + j)) = none := by
          have he : c + (j + 1) = c + 1 + j := by omega
          rw [← he]
          exact hnone
        obtain ⟨nm, hnm⟩ := ih (c + 1) ⟨j, hj, harg⟩
        exact ⟨nm, by simp [aggLoop, hcase, hnm]⟩

/-- A successful aggregation returns one observation per design point, and
the observation at index `i` is exactly the extracted moment of the case
named with counter `c + i`. -/
theorem aggLoop_ok_spec (C : Collab) :
    ∀ (pts : Design) (c : Nat) (obs : List ℝ),
    aggLoop C pts c = Except.ok obs →
    obs.length = pts.length ∧
    ∀ i, i < pts.length → C.extract (simName (c + i)) = some (obs.getD i 0) := by
  intro pts
  induction pts with
  | nil =>
    intro c obs h
    have hobs : obs = [] := by simpa [aggLoop] using h.symm
    subst hobs
    exact ⟨rfl, fun i hi => by simp at hi⟩
  | cons p ps ih =>
    intro c obs h
    cases hcase : C.extract (simName c) with
    | none => simp [aggLoop, hcase] at h
    | some r =>
      cases hrec : aggLoop C ps (c + 1) with
      | error e => simp [aggLoop, hcase, hrec] at h
      | ok rest =>
        have hobs : obs = r :: rest := by simpa [aggLoop, hcase, hrec] using h.symm
        subst hobs
        obtain ⟨hlen, hspec⟩ := ih (c + 1) rest hrec
        refine ⟨by simp [hlen], ?_⟩
        intro i hi
        cases i with
        | zero => simpa using hcase
        | succ j =>
          have hj : j < ps.length := by simpa using hi
          have he : c + (j + 1) = c + 1 + j := by omega
          rw [he]
          simpa using hspec j hj

/-- If every case output in range is present, the aggregation loop
succeeds. -/
theorem aggLoop_ok_of_all (C : Collab) :
    ∀ (pts : Design) (c : Nat),
    (∀ i, i < pts.length → (C.extract (simName (c + i))).isSome = true) →
    ∃ obs, aggLoop C pts c = Except.ok obs := by
  intro pts
  induction pts with
  | nil => exact fun c _ => ⟨[], rfl⟩
  | cons p ps ih =>
    intro c hall
    obtain ⟨r, hr⟩ := Option.isSome_iff_exists.mp (hall 0 (by simp))
    rw [Nat.add_zero] at hr
    obtain ⟨rest, hrest⟩ := ih (c + 1) (fun i hi => by
      have he : c + 1 + i = c + (i + 1) := by omega
      rw [he]
      exact hall (i + 1) (by simpa using hi))
    exact ⟨r :: rest, by simp [aggLoop, hr, hrest]⟩

/-- C6: aggregating a persisted design of size `N` aborts with a
missing-result error as soon as any case output `simulation_i` (1-based,
`i ≤ N`) is absent — never returning a shorter observation list — and
returns exactly `N` observations when all case outputs are present. -/
theorem C6_missing_case_handling (C : Collab) (pts : Design) :
    ((∃ i, i < pts.length ∧ C.extract (simName (i + 1)) = none) →
      ∃ nm, aggLoop C pts 1 = Except.error (PipelineError.missingResult nm)) ∧
    ((∀ i, i < pts.length → (C.extract (simName (i + 1))).isSome = true) →
      ∃ obs, aggLoop C pts 1 = Except.ok obs ∧ obs.length = pts.length) := by
  constructor
  · rintro ⟨i, hi, hn⟩
    refine aggLoop_error_of_missing C pts 1 ⟨i, hi, ?_⟩
    rw [Nat.add_comm 1 i]
    exact hn
  · intro hall
    obtain ⟨obs, hobs⟩ := aggLoop_ok_of_all C pts 1 (fun i hi => by
      rw [Nat.add_comm 1 i]
      exact hall i hi)
    exact ⟨obs, hobs, (aggLoop_ok_spec C pts 1 obs hobs).1⟩

/-- Witness for C6: the spec's size-5 scenario — with `simulation_3` absent
the aggregation errs with a missing result; with all outputs present it
returns exactly 5 observations. -/
theorem C6_witness :
    (∃ nm, aggLoop missing3Collab (List.replicate 5 [0, 0, 0]) 1 =
      Except.error (PipelineError.missingResult nm)) ∧
    (∃ obs, aggLoop okCollab (List.replicate 5 [0, 0, 0]) 1 = Except.ok obs ∧
      obs.length = (List.replicate 5 ([0, 0, 0] : Point)).length) :=
  ⟨(C6_missing_case_handling missing3Collab (List.replicate 5 [0, 0, 0])).1
      ⟨2, by decide, rfl⟩,
    (C6_missing_case_handling okCollab (List.replicate 5 [0, 0, 0])).2
      (fun _ _ => rfl)⟩

/-- The reserved validation-point name differs from `"simulation_"` followed
by anything (the two strings differ at their first character). -/
theorem validationName_ne_simulation (r : String) :
    validationName ≠ "simulation_" ++ r := by
  intro h
  have h2 := congrArg String.data h
  rw [String.data_append] at h2
  simp [validationName] at h2

/-- C8: the validation step draws exactly one fresh point from the design
generator, runs it through the same per-case construction/execution actions
as the batch cases, under the reserved name `known_value`, which differs
from every batch case name `simulation_i`, `i ≥ 1`. -/
theorem C8_validation_point (C : Collab) (s : Nat)
    (hc : (C.sampler s 1).1.length = 1) :
    (validationStep C s).1.length = 1 ∧
    (validationStep C s).2 =
      perCaseEvents validationName (validationStep C s).1.headI ++
        [Event.extract validationName] ∧
    ∀ i : Nat, 1 ≤ i → validationName ≠ simName i := by
  refine ⟨hc, rfl, ?_⟩
  intro i _
  exact validationName_ne_simulation (toString i)

/-- Witness for C8 with a concrete sampler that returns one point. -/
theorem C8_witness :
    (okCollab.sampler 0 1).1.length = 1 ∧
    ((validationStep okCollab 0).1.length = 1 ∧
      (validationStep okCollab 0).2 =
        perCaseEvents validationName (validationStep okCollab 0).1.headI ++
          [Event.extract validationName] ∧
      ∀ i : Nat, 1 ≤ i → validationName ≠ simName i) :=
  ⟨rfl, C8_validation_point okCollab 0 rfl⟩

/-- C1 fails on the code: a fully successful batch run from working
directory `/home/user` with output directory `/scratch/results` saves the
design to `/home/user/input_points.npy` (the batch driver passes the bare
relative path `input_points.npy` to `np.save`), so the analysis run on the
same output directory looks for `/scratch/results/input_points.npy`, finds
nothing, and fails with NotFound — the round trip the claim (and the spec's
persistence sentence) promises does not happen whenever the working
directory differs from the output directory. -/
theorem C1_design_saved_outside_output_dir :
    (run_mogp_simulation okCollab 2 0 "/home/user" "/scratch/results" []).2.2 =
      none ∧
    readFS (run_mogp_simulation okCollab 2 0 "/home/user" "/scratch/results" []).1
      "/home/user/input_points.npy" = some (List.replicate 2 [0, 0, 0]) ∧
    loadDesign
      (run_mogp_simulation okCollab 2 0 "/home/user" "/scratch/results" []).1
      "/home/user" "/scratch/results" = none ∧
    load_training_set okCollab
      (run_mogp_simulation okCollab 2 0 "/home/user" "/scratch/results" []).1
      "/home/user" "/scratch/results" = Except.error PipelineError.notFound :=
  ⟨rfl, rfl, rfl, rfl⟩

/-- On a fully successful batch, the dispatch trace has two actions per
design point, and the actions of the `i`-th case (0-based) sit at positions
`2*i` and `2*i + 1`: construction of the point under the counter-derived
name, then execution — so case `i` finishes before case `i + 1` starts. -/
theorem batchLoop_none_parts (C : Collab) :
    ∀ (pts : Design) (c : Nat),
    (batchLoop C pts c).2 = none →
    (batchLoop C pts c).1.length = 2 * pts.length ∧
    ∀ i, i < pts.length →
      (batchLoop C pts c).1.get? (2 * i) =
        some (Event.create (simName (c + i)) (pts.getD i [])) ∧
      (batchLoop C pts c).1.get? (2 * i + 1) =
        some (Event.run (simName (c + i))) := by
  intro pts
  induction pts with
  | nil =>
    intro c _
    exact ⟨rfl, fun i hi => by simp at hi⟩
  | cons p ps ih =>
    intro c h
    cases hcr : C.createOk (simName c) p with
    | false => simp [batchLoop, hcr] at h
    | true =>
      cases hrn : C.runOk (simName c) with
      | false => simp [batchLoop, hcr, hrn] at h
      | true =>
        have h' : (batchLoop C ps (c + 1)).2 = none := by
          simpa [batchLoop, hcr, hrn] using h
        have htr : (batchLoop C (p :: ps) c).1 =
            Event.create (simName c) p :: Event.run (simName c) ::
              (batchLoop C ps (c + 1)).1 := by
          simp [batchLoop, hcr, hrn, perCaseEvents]
        obtain ⟨ihlen, ihspec⟩ := ih (c + 1) h'
        constructor
        · rw [htr]
          simp only [List.length_cons, ihlen]
          omega
        · intro i hi
          rw [htr]
          cases i with
          | zero => simp
          | succ j =>
            have hj : j < ps.length := by simpa using hi
            have he : c + (j + 1) = c + 1 + j := by omega
            have e2 : 2 * (j + 1) = 2 * j + 1 + 1 := by ring
            have e3 : 2 * (j + 1) + 1 = 2 * j + 1 + 1 + 1 := by ring
            obtain ⟨hc1, hc2⟩ := ihspec j hj
            constructor
            · rw [e2, List.get?_cons_succ, List.get?_cons_succ, he]
              simpa using hc1
            · rw [e3, List.get?_cons_succ, List.get?_cons_succ, he]
              exact hc2

/-- C2: on a fully successful batch over a design of size `N`, the `i`-th
generated point (0-based here, so name index `i + 1`) is constructed under
the case name `simulation_(i+1)` and executed at trace positions `2*i` and
`2*i + 1` — hence each case completes before the next starts — and a
successful aggregation derives the identical name for index `i`, so the
observation list aligns index-by-index with the design. -/
theorem C2_index_name_alignment (C : Collab) (pts : Design) (obs : List ℝ)
    (i : Nat) (hok : (batchLoop C pts 1).2 = none)
    (hagg : aggLoop C pts 1 = Except.ok obs) (hi : i < pts.length) :
    (batchLoop C pts 1).1.get? (2 * i) =
      some (Event.create (simName (i + 1)) (pts.getD i [])) ∧
    (batchLoop C pts 1).1.get? (2 * i + 1) =
      some (Event.run (simName (i + 1))) ∧
    obs.length = pts.length ∧
    C.extract (simName (i + 1)) = some (obs.getD i 0) := by
  obtain ⟨-, hspec⟩ := batchLoop_none_parts C pts 1 hok
  obtain ⟨halen, haspec⟩ := aggLoop_ok_spec C pts 1 obs hagg
  obtain ⟨h1, h2⟩ := hspec i hi
  have h3 := haspec i hi
  rw [Nat.add_comm 1 i] at h1 h2 h3
  exact ⟨h1, h2, halen, h3⟩

/-- Witness for C2: a two-point design with distinct recorded moments,
instantiated at index 1. -/
theorem C2_witness :
    (batchLoop demoCollab [[1], [2]] 1).2 = none ∧
    aggLoop demoCollab [[1], [2]] 1 = Except.ok [10, 20] ∧
    (1 : Nat) < ([[1], [2]] : Design).length ∧
    ((batchLoop demoCollab [[1], [2]] 1).1.get? (2 * 1) =
      some (Event.create (simName (1 + 1)) (([[1], [2]] : Design).getD 1 [])) ∧
    (batchLoop demoCollab [[1], [2]] 1).1.get? (2 * 1 + 1) =
      some (Event.run (simName (1 + 1))) ∧
    ([10, 20] : List ℝ).length = ([[1], [2]] : Design).length ∧
    demoCollab.extract (simName (1 + 1)) =
      some (([10, 20] : List ℝ).getD 1 0)) :=
  ⟨rfl, rfl, by decide,
    C2_index_name_alignment demoCollab [[1], [2]] [10, 20] 1 rfl rfl (by decide)⟩

/-- The implausibility list is the pointwise image of the prediction list. -/
theorem get_implausibility_getD (obs : ℝ) (preds : List (ℝ × ℝ)) (i : Nat)
    (h : i < preds.length) :
    (get_implausibility obs preds).getD i 0 =
      implausibility obs (preds.getD i (0, 0)).1 (preds.getD i (0, 0)).2 := by
  unfold get_implausibility
  rw [List.getD_eq_getElem?_getD, List.getD_eq_getElem?_getD,
    List.getElem?_map, List.getElem?_eq_getElem h]
  simp

/-- An in-range `getD` is a member of the list. -/
theorem getD_mem_of_lt (l : List (ℝ × ℝ)) (i : Nat) (h : i < l.length) :
    l.getD i (0, 0) ∈ l := by
  rw [List.getD_eq_getElem?_getD, List.getElem?_eq_getElem h]
  exact List.getElem_mem _

/-- C4: under positive variances, the implausibility at query index `i` is
`|observation − mean_i| / sqrt(variance_i)`, and the NROY set holds exactly
the indices whose implausibility does not exceed the threshold, boundary
included: an index whose implausibility equals the threshold is in NROY. -/
theorem C4_implausibility_and_nroy (obs threshold : ℝ)
    (preds : List (ℝ × ℝ)) (i : Nat)
    (hv : ∀ p ∈ preds, 0 < p.2) (hi : i < preds.length) :
    (get_implausibility obs preds).getD i 0 =
      ENNReal.ofReal (|obs - (preds.getD i (0, 0)).1| /
        Real.sqrt (preds.getD i (0, 0)).2) ∧
    (i ∈ nroy obs preds threshold ↔
      (get_implausibility obs preds).getD i 0 ≤ ENNReal.ofReal threshold) ∧
    ((get_implausibility obs preds).getD i 0 = ENNReal.ofReal threshold →
      i ∈ nroy obs preds threshold) := by
  have hpos : 0 < (preds.getD i (0, 0)).2 := hv _ (getD_mem_of_lt preds i hi)
  have hg := get_implausibility_getD obs preds i hi
  have hform : (get_implausibility obs preds).getD i 0 =
      ENNReal.ofReal (|obs - (preds.getD i (0, 0)).1| /
        Real.sqrt (preds.getD i (0, 0)).2) := by
    rw [hg]
    unfold implausibility
    rw [if_neg (ne_of_gt hpos)]
  have hiff : i ∈ nroy obs preds threshold ↔
      (get_implausibility obs preds).getD i 0 ≤ ENNReal.ofReal threshold := by
    unfold nroy
    simp only [Set.mem_setOf_eq]
    constructor
    · rintro ⟨-, h⟩
      rw [hg]
      exact h
    · intro h
      exact ⟨hi, by rw [← hg]; exact h⟩
  exact ⟨hform, hiff, fun h => hiff.mpr (le_of_eq h)⟩

/-- Witness for C4 at the spec's NROY example, index 1: prediction
`(mean 12, variance 1)` against observation 10 with threshold 2 — the
boundary case, included in NROY. -/
theorem C4_witness :
    (∀ p ∈ [((10 : ℝ), (1 : ℝ)), (12, 1), (50, 1)], 0 < p.2) ∧
    (1 : Nat) < ([((10 : ℝ), (1 : ℝ)), (12, 1), (50, 1)]).length ∧
    ((get_implausibility 10 [(10, 1), (12, 1), (50, 1)]).getD 1 0 =
      ENNReal.ofReal
        (|(10 : ℝ) - (([((10 : ℝ), (1 : ℝ)), (12, 1), (50, 1)]).getD 1 (0, 0)).1| /
          Real.sqrt (([((10 : ℝ), (1 : ℝ)), (12, 1), (50, 1)]).getD 1 (0, 0)).2) ∧
    ((1 : Nat) ∈ nroy 10 [(10, 1), (12, 1), (50, 1)] 2 ↔
      (get_implausibility 10 [(10, 1), (12, 1), (50, 1)]).getD 1 0 ≤
        ENNReal.ofReal 2) ∧
    ((get_implausibility 10 [(10, 1), (12, 1), (50, 1)]).getD 1 0 =
        ENNReal.ofReal 2 →
      (1 : Nat) ∈ nroy 10 [(10, 1), (12, 1), (50, 1)] 2)) :=
  ⟨by norm_num, by norm_num,
    C4_implausibility_and_nroy 10 2 [(10, 1), (12, 1), (50, 1)] 1
      (by norm_num) (by norm_num)⟩

end Fabmogp
